import Mathlib

/-!
Verification of the CAST batch-analysis client (`cast_client.py`) against its
natural-language specification.

The Python source is shallowly embedded: every external effect (HTTP request,
filesystem access, subprocess, clock) is supplied by an explicit environment
record, and each Python function becomes a Lean function over those
environments, returning its Python result together with the list of external
events it performed.  Python/JSON values are the inductive type `PyJson`;
Python truthiness is `pyTruthy`.
-/

/-- A JSON value as Python's `json.loads` produces it.  Numbers are restricted
to integers: no field this program reads carries a float. -/
inductive PyJson where
  | null
  | bool (b : Bool)
  | num (n : Int)
  | str (s : String)
  | arr (elems : List PyJson)
  | obj (fields : List (String × PyJson))

/-- Python truthiness of a JSON value (`if x:`): `None`, `False`, `0`, `""`,
`[]` and `{}` are falsy, everything else truthy. -/
def pyTruthy : PyJson → Bool
  | .null => false
  | .bool b => b
  | .num n => n != 0
  | .str s => s != ""
  | .arr elems => !elems.isEmpty
  | .obj fields => !fields.isEmpty

/-- The exceptions the job-descriptor reader can raise: `json.loads` raises a
parse error on malformed input; calling `.get` on a non-dict raises
`AttributeError`; iterating a non-iterable raises `TypeError`. -/
inductive ReadError where
  | parseError
  | attributeError
  | typeError
  deriving DecidableEq

/-- Python `receiver.get(key, dflt)`.  Raises `AttributeError` when the
receiver is not a dict (`json.loads` can put any JSON value at any
position). -/
def dictGet (receiver : PyJson) (key : String) (dflt : PyJson) :
    Except ReadError PyJson :=
  match receiver with
  | .obj fields => .ok ((fields.lookup key).getD dflt)
  | _ => .error .attributeError

/-- Python `for x in v`: lists yield their elements, dicts their keys, strings
their one-character substrings; other values raise `TypeError`. -/
def pyIterate : PyJson → Except ReadError (List PyJson)
  | .arr elems => .ok elems
  | .obj fields => .ok (fields.map fun p => .str p.1)
  | .str s => .ok (s.toList.map fun c => .str (String.mk [c]))
  | _ => .error .typeError

/-- `RepoDetails` as `JsonReader.get_repo_details` constructs it (lines
48-52): the three fields read from the job JSON, kept as JSON values since
the reader stores whatever `dict.get` returned, unvalidated. -/
structure RawRepoDetails where
  repo_url : PyJson
  assessed_branch : PyJson
  transformed_branch : PyJson

/-- `RepoDetails` as the orchestrator consumes it, all three fields strings
(the two folder fields of the Python class start empty and are threaded as
locals in `process_repo`). -/
structure RepoDetails where
  repo_url : String
  assessed_branch : String
  transformed_branch : String
  deriving DecidableEq

/-- `JsonReader._get_target_branch` (line 38):
`data.get("jobDetail", {}).get("targetBranch", "")`. -/
def get_target_branch (data : PyJson) : Except ReadError PyJson := do
  let jd ← dictGet data "jobDetail" (.obj [])
  dictGet jd "targetBranch" (.str "")

/-- The body of the loop in `JsonReader.get_repo_details` (lines 43-53) for
one repository entry. -/
def read_repo_entry (tb : PyJson) (repo : PyJson) :
    Except ReadError RawRepoDetails := do
  let loc ← dictGet repo "repositoryLocation" (.obj [])
  let url ← dictGet loc "url" (.str "")
  let sb ← dictGet repo "sourceBranch" (.str "")
  pure ⟨url, sb, tb⟩

/-- The whole `JsonReader` (lines 32-54): construction parses the JSON and
runs `_get_target_branch`; `get_repo_details` iterates
`data.get("repositories", [])`.  Input `none` stands for a string that is not
well-formed JSON (`json.loads` raises a parse error on it); `some data` for
well-formed JSON parsing to `data`.  Returns the target branch and the repo
entry list. -/
def json_reader_run (input : Option PyJson) :
    Except ReadError (PyJson × List RawRepoDetails) :=
  match input with
  | none => .error .parseError
  | some data => do
    let tb ← get_target_branch data
    let reposVal ← dictGet data "repositories" (.arr [])
    let repos ← pyIterate reposVal
    let entries ← repos.mapM (read_repo_entry tb)
    pure (tb, entries)

/-- Whether a JSON value is a dict. -/
def isObj : PyJson → Bool
  | .obj _ => true
  | _ => false

/-- Total lookup-with-default, following the spec's words "default empty
string if absent": used by the spec-side description of the reader that
`json_reader_run` is compared against. -/
def specLookupD (j : PyJson) (key : String) (dflt : PyJson) : PyJson :=
  match j with
  | .obj fields => (fields.lookup key).getD dflt
  | _ => dflt

/-- Spec-side description of the target branch: "extract the target branch
(top-level field, default empty string if absent)". -/
def spec_target_branch (data : PyJson) : PyJson :=
  specLookupD (specLookupD data "jobDetail" (.obj [])) "targetBranch" (.str "")

/-- Spec-side description of one repository entry: "each yielding a repository
URL and source branch (default empty string if absent)", sharing the single
target branch. -/
def spec_entry (tb repo : PyJson) : RawRepoDetails :=
  ⟨specLookupD (specLookupD repo "repositoryLocation" (.obj [])) "url" (.str ""),
   specLookupD repo "sourceBranch" (.str ""), tb⟩

/-- Spec-side description of the entry list: one `JobTarget` per repository
entry, "default empty list if absent". -/
def spec_entries (data : PyJson) : List RawRepoDetails :=
  match specLookupD data "repositories" (.arr []) with
  | .arr repos => repos.map (spec_entry (spec_target_branch data))
  | _ => []

/-- One repository entry is shaped so the reader's `.get` calls cannot raise:
it is a dict whose "repositoryLocation" value, when present, is a dict. -/
def repoEntryShaped (repo : PyJson) : Bool :=
  match repo with
  | .obj fields =>
    match fields.lookup "repositoryLocation" with
    | some l => isObj l
    | none => true
  | _ => false

/-- The job JSON is shaped so the reader cannot raise: top level a dict,
"jobDetail" (when present) a dict, "repositories" (when present) a list of
shaped entries. -/
def jobShaped (data : PyJson) : Bool :=
  match data with
  | .obj fields =>
    (match fields.lookup "jobDetail" with
     | some j => isObj j
     | none => true)
    && (match fields.lookup "repositories" with
        | some (.arr repos) => repos.all repoEntryShaped
        | some _ => false
        | none => true)
  | _ => false

/-- The first list is a leading segment of the second. -/
def beginsWith : List Char → List Char → Bool
  | [], _ => true
  | _ :: _, [] => false
  | a :: as, b :: bs => a = b && beginsWith as bs

/-- Fuel-indexed splitter over character lists, mirroring Python's
`str.split(sep)` for a non-empty separator.  With `fuel` at least the input
length the fuel never runs out; the fuel only makes the recursion structural,
so every definition built on it stays kernel-computable. -/
def splitSeq (sep : List Char) : Nat → List Char → List (List Char)
  | _, [] => [[]]
  | 0, s => [s]
  | fuel + 1, x :: xs =>
    if beginsWith sep (x :: xs) && !sep.isEmpty then
      [] :: splitSeq sep fuel ((x :: xs).drop sep.length)
    else
      match splitSeq sep fuel xs with
      | [] => [[x]]
      | r :: rs => (x :: r) :: rs

/-- Python `s.split(sep)` (non-empty separator). -/
def pySplit (s sep : String) : List String :=
  (splitSeq sep.toList (s.toList.length + 1) s.toList).map fun l => String.mk l

/-- Python `s.replace(old, new)`: replaces every occurrence. -/
def pyReplace (s old new : String) : String :=
  String.mk
    (List.intercalate new.toList (splitSeq old.toList (s.toList.length + 1) s.toList))

/-- The path component of `urlparse(url)` for the URL shapes this program
receives: for `scheme://host/p1/p2` the part after the authority (without its
leading slash, which the subsequent `.strip('/')` removes anyway); a URL
without `://` lands wholly in `.path`, as Python's `urlparse` also puts it
there.  Query/fragment splitting is not modelled: no input of this program
carries them. -/
def urlPath (url : String) : String :=
  match pySplit url "://" with
  | [] => ""
  | [p] => p
  | _ :: rest =>
    match pySplit (String.intercalate "://" rest) "/" with
    | [] => ""
    | _ :: segs => String.intercalate "/" segs

/-- Python `s.strip('/')`. -/
def stripSlashes (s : String) : String :=
  String.mk (((s.toList.dropWhile (· = '/')).reverse.dropWhile (· = '/')).reverse)

/-- `urlparse(repo_url).path.strip('/').split('/')` (line 65). -/
def pathParts (url : String) : List String :=
  pySplit (stripSlashes (urlPath url)) "/"

/-- Environment of one `GithubRepoDownloader.download_repo` call: whether the
zipball GET succeeds (`raise_for_status` and network errors), the
platform-generated name of the archive's top-level directory, and the order
in which `os.listdir` lists a directory — the OS promises no particular
order, so the model takes it as an input (theorems state which orders
matter).  The model tracks the contents of `output_folder` as a list of entry
names. -/
structure DlWorld where
  httpOk : Bool
  extractedName : String
  listdir : List String → List String

/-- Creating a filesystem entry: no duplicate names in one directory
(extracting over an existing directory merges into it). -/
def addEntry (entries : List String) (e : String) : List String :=
  if e ∈ entries then entries else entries ++ [e]

/-- Removing a filesystem entry (`os.remove` / `shutil.rmtree`). -/
def removeEntry (entries : List String) (e : String) : List String :=
  entries.filter (· != e)

/-- `GithubRepoDownloader.download_repo` (lines 64-100).  `entries` is the
directory contents of `output_folder` before the call; the result is the
Python return value (`none` for every caught exception, per the blanket
`except` of line 98) together with the directory contents after the call.
The steps, in source order: parse the URL (fewer than two path segments →
`None`); GET the zipball (failure → `None`); write the zip; extract it;
delete the zip; pick `os.listdir(output_folder)[0]` as the extracted folder;
if `<repo>-<branch>` already exists, `rmtree` it; `os.rename` the picked
entry onto `<repo>-<branch>` (renaming a just-removed source raises, caught →
`None`). -/
def download_repo (w : DlWorld) (repo_url branch output_folder : String)
    (entries : List String) : Option String × List String :=
  let parts := pathParts repo_url
  if parts.length < 2 then (none, entries)
  else
    let repo := parts.getD 1 ""
    if !w.httpOk then (none, entries)
    else
      let zipName := repo ++ "-" ++ branch ++ ".zip"
      let finalName := repo ++ "-" ++ branch
      let final := output_folder ++ "/" ++ finalName
      let afterZip := addEntry entries zipName
      let afterExtract := addEntry afterZip w.extractedName
      let afterRm := removeEntry afterExtract zipName
      match (w.listdir afterRm).head? with
      | none => (none, afterRm)
      | some firstEntry =>
        if finalName ∈ afterRm then
          let afterRmtree := removeEntry afterRm finalName
          if firstEntry = finalName then (none, afterRmtree)
          else (some final, addEntry (removeEntry afterRmtree firstEntry) finalName)
        else (some final, addEntry (removeEntry afterRm firstEntry) finalName)

/-- Environment of one `CastApiClient.execute_analysis` call: `os.path.exists`
on the paths it checks, the outcome of the `--testAuth` docker probe, of the
`git clone`, and the analysis container's exit code. -/
structure AnalysisWorld where
  pathExists : String → Bool
  authOk : Bool
  cloneOk : Bool
  dockerCode : Int

/-- The external processes `execute_analysis` spawns, in order. -/
inductive AnalysisEvent where
  | authProbe (ok : Bool)
  | gitClone (repo_url branch dest : String) (ok : Bool)
  | dockerRun (sourceDir workingDir : String) (appId : PyJson) (label : String)
      (dt : Int) (code : Int)

/-- `CastApiClient.execute_analysis` (lines 235-355): missing `work_dir` →
exit 1 before anything runs; failed `_test_authentication` (lines 206-233) →
exit 1 before the clone and the analysis container; then `source` and
`working` directories are created, the repository is cloned unless its
directory already exists (a clone failure raises `CalledProcessError`, caught
by the blanket `except` of line 352 → exit 1), and the analysis container
runs, its own exit code returned.  `application_id` is whatever
`create_application` returned (the `int` annotation on line 235 is not
enforced by Python). -/
def execute_analysis (w : AnalysisWorld) (work_dir repo_url branch : String)
    (application_id : PyJson) (date_time : Int) (snapshot_label : String) :
    Int × List AnalysisEvent :=
  if !w.pathExists work_dir then (1, [])
  else if !w.authOk then (1, [.authProbe false])
  else
    let source_dir := work_dir ++ "/source"
    let working_dir := work_dir ++ "/working"
    let repo_name := pyReplace ((pySplit repo_url "/").getLastD "") ".git" ""
    let repo_dir := source_dir ++ "/" ++ repo_name
    if !w.pathExists repo_dir then
      if !w.cloneOk then (1, [.authProbe true, .gitClone repo_url branch repo_dir false])
      else
        (w.dockerCode,
         [.authProbe true, .gitClone repo_url branch repo_dir true,
          .dockerRun repo_dir working_dir application_id snapshot_label date_time w.dockerCode])
    else
      (w.dockerCode,
       [.authProbe true,
        .dockerRun repo_dir working_dir application_id snapshot_label date_time w.dockerCode])

/-- The outcome of one status poll (line 411-413): a network/HTTP error
(including `raise_for_status`), or the response body. -/
inductive PollResp where
  | httpErr
  | body (j : PyJson)

/-- How lines 413-417 see `response.json().get("status")`: equal to the
string "COMPLETED", equal to the string "FAILED", or anything else (a
missing field, i.e. `None`, a non-string value, or any other string). -/
inductive StatusSig where
  | completed
  | failed
  | other
  deriving DecidableEq

/-- The comparisons `status == "COMPLETED"` / `status == "FAILED"`. -/
def statusSignal : Option PyJson → StatusSig
  | some (.str s) =>
    if s = "COMPLETED" then .completed
    else if s = "FAILED" then .failed
    else .other
  | _ => .other

/-- The loop of `CastApiClient.wait_for_computation` (lines 404-427).
`poll n` is the outcome of the n-th status request; `httpErr` and a non-dict
body (whose `.get` raises `AttributeError`) are both swallowed by the
`except` of line 422 and return `False` at once.  Only `time.sleep(30)`
advances the modelled clock (network latency is not modelled), so `elapsed`
is the wall-clock seconds since `start_time` and the `while` guard is
`elapsed < max_wait`.  Besides the Python function's boolean result the
model returns the number of polls performed and the elapsed time at return,
so that theorems can speak about them. -/
def wait_loop (poll : Nat → PollResp) (max_wait : Nat) (k elapsed : Nat) :
    Bool × Nat × Nat :=
  if _h : elapsed < max_wait then
    match poll k with
    | .httpErr => (false, k + 1, elapsed)
    | .body j =>
      match j with
      | .obj fields =>
        match statusSignal (fields.lookup "status") with
        | .completed => (true, k + 1, elapsed)
        | .failed => (false, k + 1, elapsed)
        | .other => wait_loop poll max_wait (k + 1) (elapsed + 30)
      | _ => (false, k + 1, elapsed)
  else (false, k, elapsed)
termination_by max_wait - elapsed
decreasing_by omega

/-- `CastApiClient.wait_for_computation`: the loop from poll 0, elapsed 0;
the Python default budget is 3600 seconds, and `process_repositories` always
calls it with that default. -/
def wait_for_computation (poll : Nat → PollResp) (max_wait : Nat) : Bool :=
  (wait_loop poll max_wait 0 0).1

/-- A poll response that is neither terminal nor an error: the loop sleeps 30
seconds and polls again. -/
def pollNonterminal (r : PollResp) : Bool :=
  match r with
  | .body (.obj fields) => statusSignal (fields.lookup "status") == .other
  | _ => false

/-- A poll response with status COMPLETED: the loop returns `True`. -/
def pollCompleted (r : PollResp) : Bool :=
  match r with
  | .body (.obj fields) => statusSignal (fields.lookup "status") == .completed
  | _ => false

/-- A poll response on which the loop returns `False` at once: status FAILED,
a network/HTTP error, or a body that is not a dict. -/
def pollFatal (r : PollResp) : Bool := !pollNonterminal r && !pollCompleted r

/-- Environment of `process_repositories` (lines 429-562).  Components whose
internals are verified separately appear at the granularity the orchestrator
sees: `createAppResp` is the raw HTTP outcome of `POST /applications` (fed to
`create_application`); `download`, `analysis`, `trig`, `waitComp` and `seg`
are the results of `download_repo`, `execute_analysis`,
`trigger_computation`, `wait_for_computation` and `get_5r_segmentation` as
functions of the arguments the orchestrator passes; `time` is the value of
`int(time.time())` at the n-th read (line 486 and line 526 read the clock
separately, so the two reads are distinct inputs). -/
structure World where
  createAppResp : String → Except Unit PyJson
  download : String → String → String → Option String
  analysis : String → String → String → PyJson → Int → String → Int
  trig : PyJson → Bool
  waitComp : PyJson → Bool
  seg : PyJson → Int → Option PyJson
  time : Nat → Int

/-- `CastApiClient.create_application` (lines 357-378): any HTTP error
(including `raise_for_status`) is caught and yields `None`; otherwise the
result is `response.json().get("id")` — `None` when the body has no "id"
field, and `None` again via the `except` clause when the body is not a dict
(its `.get` raises `AttributeError`). -/
def create_application (resp : Except Unit PyJson) : Option PyJson :=
  match resp with
  | .error _ => none
  | .ok (.obj fields) => fields.lookup "id"
  | .ok _ => none

/-- The externally visible steps of the orchestrator, in order. -/
inductive Event where
  | createApp (name : String) (result : Option PyJson)
  | download (url branch folder : String) (result : Option String)
  | analysis (workDir url branch : String) (appId : PyJson) (dt : Int)
      (label : String) (code : Int)
  | trig (appId : PyJson) (ok : Bool)
  | waitComp (appId : PyJson) (ok : Bool)
  | seg (appId : PyJson) (snapshotId : Int) (result : Option PyJson)
  | writeFile (path : String) (content : PyJson)

/-- `repo_name = repo_details.repo_url.split('/')[-1]` (line 448). -/
def repoNameOf (url : String) : String := (pySplit url "/").getLastD ""

/-- Output directory of one repository (line 449). -/
def repoDirOf (base : String) (r : RepoDetails) : String :=
  base ++ "/" ++ repoNameOf r.repo_url

/-- Assessed-branch output file (line 513). -/
def preFile (dir : String) : String := dir ++ "/pre_transformation_5r.json"

/-- Transformed-branch output file (line 553). -/
def postFile (dir : String) : String := dir ++ "/post_transformation_5r.json"

/-- One branch pipeline of `process_repositories` (assessed branch lines
484-522, transformed branch lines 524-562): run `execute_analysis`; on exit
code 0 `trigger_computation`; on acceptance `wait_for_computation`; on
completion `get_5r_segmentation` with the branch's snapshot datetime as the
snapshot key; when the result is truthy, write it to `outFile`.  Returns the
events in order. -/
def branch_pipeline (w : World) (workDir url branch : String) (appId : PyJson)
    (dt : Int) (label outFile : String) : List Event :=
  let code := w.analysis workDir url branch appId dt label
  let e1 : List Event := [.analysis workDir url branch appId dt label code]
  if code ≠ 0 then e1
  else
    let t := w.trig appId
    let e2 := e1 ++ [.trig appId t]
    if t = false then e2
    else
      let c := w.waitComp appId
      let e3 := e2 ++ [.waitComp appId c]
      if c = false then e3
      else
        let s := w.seg appId dt
        let e4 := e3 ++ [.seg appId dt s]
        match s with
        | some v => if pyTruthy v then e4 ++ [.writeFile outFile v] else e4
        | none => e4

/-- The loop body of `process_repositories` for one repository (lines
443-562).  `tick` counts the `int(time.time())` reads done so far.  Create
the application (a falsy `application_id` — `None` or, e.g., the integer 0 —
skips the whole repository via `continue`, line 456-458); download the
assessed and the transformed branch (the folder field is set only to a truthy
result, lines 468/479); run the assessed-branch pipeline when its folder was
set, with snapshot datetime `(now − 24·3600)·1000` (line 486), then the
transformed-branch pipeline when its folder was set, with snapshot datetime
`now·1000` (line 526). -/
def process_repo (w : World) (base : String) (r : RepoDetails) (tick : Nat) :
    List Event × Nat :=
  let name := repoNameOf r.repo_url
  let dir := repoDirOf base r
  match create_application (w.createAppResp name) with
  | none => ([.createApp name none], tick)
  | some appId =>
    if pyTruthy appId = false then ([.createApp name (some appId)], tick)
    else
      let aRes := w.download r.repo_url r.assessed_branch dir
      let tRes := w.download r.repo_url r.transformed_branch dir
      let aFolder := aRes.getD ""
      let tFolder := tRes.getD ""
      let head : List Event :=
        [.createApp name (some appId),
         .download r.repo_url r.assessed_branch dir aRes,
         .download r.repo_url r.transformed_branch dir tRes]
      let aEvents := if aFolder ≠ "" then
          branch_pipeline w dir r.repo_url r.assessed_branch appId
            ((w.time tick - 86400) * 1000) "pre-transformation" (preFile dir)
        else []
      let tick1 := if aFolder ≠ "" then tick + 1 else tick
      let tEvents := if tFolder ≠ "" then
          branch_pipeline w dir r.repo_url r.transformed_branch appId
            (w.time tick1 * 1000) "post-transformation" (postFile dir)
        else []
      let tick2 := if tFolder ≠ "" then tick1 + 1 else tick1
      (head ++ aEvents ++ tEvents, tick2)

/-- `process_repositories` (lines 443-562): the `for` loop over the parsed
repository list, in list order; nothing a repository iteration does breaks
the loop. -/
def process_repositories (w : World) (base : String) :
    List RepoDetails → Nat → List Event
  | [], _ => []
  | r :: rest, tick =>
    (process_repo w base r tick).1
      ++ process_repositories w base rest (process_repo w base r tick).2

/-- `if segmentation:` (line 512/552): the fetch produced a truthy report. -/
def segTruthy (o : Option PyJson) : Bool :=
  match o with
  | some v => pyTruthy v
  | none => false

/-- All stages of one branch pipeline after the download succeed: analysis
exit code 0, computation trigger accepted, poll completed, segmentation fetch
truthy. -/
def stagesOk (w : World) (workDir url branch : String) (appId : PyJson)
    (dt : Int) (label : String) : Bool :=
  (w.analysis workDir url branch appId dt label == 0) && w.trig appId
    && w.waitComp appId && segTruthy (w.seg appId dt)

/-- The truthy application id of a repository, when creation succeeded. -/
def appIdOf (w : World) (r : RepoDetails) : Option PyJson :=
  match create_application (w.createAppResp (repoNameOf r.repo_url)) with
  | some a => if pyTruthy a then some a else none
  | none => none

/-- The assessed-branch folder field after the downloads (empty = not set). -/
def aFolderOf (w : World) (base : String) (r : RepoDetails) : String :=
  (w.download r.repo_url r.assessed_branch (repoDirOf base r)).getD ""

/-- The transformed-branch folder field after the downloads. -/
def tFolderOf (w : World) (base : String) (r : RepoDetails) : String :=
  (w.download r.repo_url r.transformed_branch (repoDirOf base r)).getD ""

/-- The clock-read counter after the assessed-branch pipeline. -/
def tickAfterA (w : World) (base : String) (r : RepoDetails) (tick : Nat) : Nat :=
  if aFolderOf w base r ≠ "" then tick + 1 else tick

/-- Snapshot datetime of the assessed branch (line 486). -/
def preDt (w : World) (tick : Nat) : Int := (w.time tick - 86400) * 1000

/-- Snapshot datetime of the transformed branch (line 526). -/
def postDt (w : World) (base : String) (r : RepoDetails) (tick : Nat) : Int :=
  w.time (tickAfterA w base r tick) * 1000

/-- Event-class test used to count application-creation attempts. -/
def isCreateApp : Event → Bool
  | .createApp _ _ => true
  | _ => false

/-- A concrete shaped job descriptor: two repository entries, the second with
every optional field missing. -/
def sampleJob : PyJson :=
  .obj [("jobDetail", .obj [("targetBranch", .str "release")]),
        ("repositories", .arr
          [.obj [("repositoryLocation",
                    .obj [("url", .str "https://github.com/octo/hello")]),
                 ("sourceBranch", .str "main")],
           .obj []])]
/-- A concrete environment where every stage of every repository succeeds. -/
def happyWorld : World where
  createAppResp := fun _ => .ok (.obj [("id", .num 7)])
  download := fun _ _ dir => some (dir ++ "/hello-main")
  analysis := fun _ _ _ _ _ _ => 0
  trig := fun _ => true
  waitComp := fun _ => true
  seg := fun _ _ => some (.obj [("segments", .arr [.str "rehost"])])
  time := fun n => 1700000000 + n
/-- `happyWorld`, except that every analysis run exits with code 1. -/
def failAnalysisWorld : World :=
  { happyWorld with analysis := fun _ _ _ _ _ _ => 1 }
/-- A concrete repository entry. -/
def sampleRepo : RepoDetails :=
  ⟨"https://github.com/octo/hello", "main", "release"⟩

/-- A concrete analysis environment: the working directory "work" exists,
nothing else does (in particular neither "work/source" nor the clone target
inside it); authentication and cloning succeed; the container exits 0. -/
def analysisWorldNoSource : AnalysisWorld := ⟨fun p => p == "work", true, true, 0⟩

/-- A concrete analysis environment whose authentication probe fails. -/
def authFailWorld : AnalysisWorld := ⟨fun p => p == "work", false, true, 0⟩

/-- A download environment whose `os.listdir` happens to return directory
entries in creation order — one legitimate possibility, since the OS
guarantees no order at all. -/
def dlInsertionOrder : DlWorld := ⟨true, "octo-hello-1a2b3c", fun entries => entries⟩

/-- A status endpoint that always answers 200 with `{"status": "RUNNING"}`. -/
def alwaysRunningPoll : Nat → PollResp :=
  fun _ => .body (.obj [("status", .str "RUNNING")])

theorem except_bind_error {ε α β : Type} (a : Except ε α) (f : α → Except ε β)
    (e : ε) (h : a >>= f = .error e) :
    a = .error e ∨ ∃ x, a = .ok x ∧ f x = .error e := by
  cases a with
  | error e2 =>
    left
    have : e2 = e := by
      simpa [Bind.bind, Except.bind] using h
    rw [this]
  | ok x =>
    right
    exact ⟨x, rfl, by simpa [Bind.bind, Except.bind] using h⟩

theorem dictGet_ne_parseError (receiver : PyJson) (key : String) (dflt : PyJson) :
    dictGet receiver key dflt ≠ .error .parseError := by
  cases receiver <;> simp [dictGet]

theorem pyIterate_ne_parseError (j : PyJson) :
    pyIterate j ≠ .error .parseError := by
  cases j <;> simp [pyIterate]

theorem read_repo_entry_ne_parseError (tb repo : PyJson) :
    read_repo_entry tb repo ≠ .error .parseError := by
  intro h
  rcases except_bind_error _ _ _ h with h1 | ⟨loc, _, h2⟩
  · exact dictGet_ne_parseError _ _ _ h1
  · rcases except_bind_error _ _ _ h2 with h3 | ⟨url, _, h4⟩
    · exact dictGet_ne_parseError _ _ _ h3
    · rcases except_bind_error _ _ _ h4 with h5 | ⟨sb, _, h6⟩
      · exact dictGet_ne_parseError _ _ _ h5
      · simp [pure, Except.pure] at h6

theorem mapM_read_repo_entry_ne_parseError (tb : PyJson) (repos : List PyJson) :
    repos.mapM (read_repo_entry tb) ≠ .error .parseError := by
  induction repos with
  | nil =>
    intro h
    simp [List.mapM, List.mapM.loop, pure, Except.pure] at h
  | cons r rest ih =>
    intro h
    rw [List.mapM_cons] at h
    rcases except_bind_error _ _ _ h with h1 | ⟨x, _, h2⟩
    · exact read_repo_entry_ne_parseError tb r h1
    · rcases except_bind_error _ _ _ h2 with h3 | ⟨xs, _, h4⟩
      · exact ih h3
      · simp [pure, Except.pure] at h4

theorem get_target_branch_ne_parseError (data : PyJson) :
    get_target_branch data ≠ .error .parseError := by
  intro h
  rcases except_bind_error _ _ _ h with h1 | ⟨jd, _, h2⟩
  · exact dictGet_ne_parseError _ _ _ h1
  · exact dictGet_ne_parseError _ _ _ h2

theorem json_reader_parseError_iff (input : Option PyJson) :
    json_reader_run input = .error .parseError ↔ input = none := by
  constructor
  · intro h
    cases input with
    | none => rfl
    | some data =>
      exfalso
      simp only [json_reader_run] at h
      rcases except_bind_error _ _ _ h with h1 | ⟨tb, _, h2⟩
      · exact get_target_branch_ne_parseError data h1
      · rcases except_bind_error _ _ _ h2 with h3 | ⟨rv, _, h4⟩
        · exact dictGet_ne_parseError _ _ _ h3
        · rcases except_bind_error _ _ _ h4 with h5 | ⟨repos, _, h6⟩
          · exact pyIterate_ne_parseError _ h5
          · rcases except_bind_error _ _ _ h6 with h7 | ⟨entries, _, h8⟩
            · exact mapM_read_repo_entry_ne_parseError _ _ h7
            · simp [pure, Except.pure] at h8
  · intro h
    rw [h]
    rfl

theorem read_repo_entry_shaped (tb repo : PyJson) (h : repoEntryShaped repo = true) :
    read_repo_entry tb repo = .ok (spec_entry tb repo) := by
  match repo with
  | .null | .bool _ | .num _ | .str _ | .arr _ => simp [repoEntryShaped] at h
  | .obj fields =>
    rcases hl : fields.lookup "repositoryLocation" with _ | l
    · simp [read_repo_entry, dictGet, spec_entry, specLookupD, hl, Bind.bind,
        Except.bind, pure, Except.pure]
    · have hobj : isObj l = true := by
        simpa [repoEntryShaped, hl] using h
      match l, hobj with
      | .obj lf, _ =>
        simp [read_repo_entry, dictGet, spec_entry, specLookupD, hl, Bind.bind,
          Except.bind, pure, Except.pure]

theorem mapM_read_repo_entry_shaped (tb : PyJson) (repos : List PyJson)
    (h : repos.all repoEntryShaped = true) :
    repos.mapM (read_repo_entry tb) = .ok (repos.map (spec_entry tb)) := by
  induction repos with
  | nil => rfl
  | cons r rest ih =>
    rw [List.all_cons, Bool.and_eq_true] at h
    rw [List.mapM_cons, read_repo_entry_shaped tb r h.1, ih h.2]
    rfl

theorem mapM_loop_read_repo_entry (tb : PyJson) (repos : List PyJson) :
    ∀ acc, repos.all repoEntryShaped = true →
      List.mapM.loop (read_repo_entry tb) repos acc
        = .ok (acc.reverse ++ repos.map (spec_entry tb)) := by
  induction repos with
  | nil =>
    intro acc _
    simp [List.mapM.loop, pure, Except.pure]
  | cons r rest ih =>
    intro acc hall
    rw [List.all_cons, Bool.and_eq_true] at hall
    rw [List.mapM.loop, read_repo_entry_shaped tb r hall.1]
    simp [Bind.bind, Except.bind, ih _ hall.2]

theorem get_target_branch_shaped (data : PyJson) (h : jobShaped data = true) :
    get_target_branch data = .ok (spec_target_branch data) := by
  match data with
  | .null | .bool _ | .num _ | .str _ | .arr _ => simp [jobShaped] at h
  | .obj fields =>
    simp only [jobShaped, Bool.and_eq_true] at h
    rcases hl : fields.lookup "jobDetail" with _ | j
    · simp [get_target_branch, dictGet, spec_target_branch, specLookupD, hl,
        Bind.bind, Except.bind]
    · rw [hl] at h
      have hobj : isObj j = true := h.1
      match j, hobj with
      | .obj jf, _ =>
        simp [get_target_branch, dictGet, spec_target_branch, specLookupD, hl,
          Bind.bind, Except.bind]

/-- The claim "for every well-formed job JSON input the Job Descriptor Reader
never fails" is false on the code: the input `[]` is well-formed JSON, yet
`JsonReader.__init__` calls `self.data.get("jobDetail", {})` on a list, which
raises `AttributeError` (not a parse error). -/
theorem json_reader_fails_on_wellformed_list :
    json_reader_run (some (.arr [])) = .error .attributeError := rfl

/-- C8 (amended): for every well-formed job JSON input whose top level is an
object, whose "jobDetail" value (when present) is an object and whose
"repositories" value (when present) is a list of objects each of whose
"repositoryLocation" value (when present) is an object, the Job Descriptor
Reader never fails: it returns the top-level target branch (empty string if
absent) and one JobTarget per repository entry with URL and source branch
defaulting to empty string when missing, every JobTarget sharing the single
target branch as its transformedBranch (the spec-side description
`spec_target_branch` / `spec_entries`); on other well-formed JSON it can
raise an attribute/type error, and it raises a parse error iff the input is
not well-formed JSON. -/
theorem json_reader_total_on_shaped_input (data : PyJson)
    (h : jobShaped data = true) :
    json_reader_run (some data) = .ok (spec_target_branch data, spec_entries data)
    ∧ (∀ e ∈ spec_entries data, e.transformed_branch = spec_target_branch data)
    ∧ (∀ input, json_reader_run input = .error .parseError ↔ input = none) := by
  refine ⟨?_, ?_, fun input => json_reader_parseError_iff input⟩
  · match data, h with
    | .obj fields, h =>
      have hshape := h
      simp only [jobShaped, Bool.and_eq_true] at hshape
      simp only [json_reader_run, Bind.bind, Except.bind,
        get_target_branch_shaped (PyJson.obj fields) h]
      rcases hr : fields.lookup "repositories" with _ | rv
      · rw [hr] at hshape
        simp [dictGet, hr, pyIterate, spec_entries, specLookupD,
          mapM_loop_read_repo_entry _ ([] : List PyJson) [] rfl, pure, Except.pure]
      · rw [hr] at hshape
        match rv, hshape.2 with
        | .arr repos, hall =>
          simp [dictGet, hr, pyIterate, spec_entries, specLookupD,
            mapM_loop_read_repo_entry _ repos [] hall, pure, Except.pure]
  · intro e he
    simp only [spec_entries] at he
    split at he
    · rcases List.mem_map.1 he with ⟨repo, _, rfl⟩
      rfl
    · simp at he


/-- Witness for `json_reader_total_on_shaped_input` at `sampleJob`. -/
theorem json_reader_total_on_shaped_input_witness :
    json_reader_run (some sampleJob)
      = .ok (.str "release",
          [⟨.str "https://github.com/octo/hello", .str "main", .str "release"⟩,
           ⟨.str "", .str "", .str "release"⟩]) :=
  (json_reader_total_on_shaped_input sampleJob (by decide)).1

theorem branch_pipeline_filter_isCreateApp (w : World) (workDir url branch : String)
    (appId : PyJson) (dt : Int) (label outFile : String) :
    (branch_pipeline w workDir url branch appId dt label outFile).filter
      isCreateApp = [] := by
  unfold branch_pipeline
  by_cases h1 : w.analysis workDir url branch appId dt label ≠ 0
  · simp [h1, isCreateApp]
  · by_cases h2 : w.trig appId = false
    · simp [h1, h2, isCreateApp]
    · by_cases h3 : w.waitComp appId = false
      · simp [h1, h2, h3, isCreateApp]
      · rcases hs : w.seg appId dt with _ | v
        · simp [h1, h2, h3, hs, isCreateApp]
        · by_cases h4 : pyTruthy v = true
          · simp [h1, h2, h3, hs, h4, isCreateApp]
          · simp [h1, h2, h3, hs, h4, isCreateApp]

theorem branch_pipeline_analysis_mem (w : World) (workDir url branch : String)
    (appId : PyJson) (dt : Int) (label outFile : String) :
    Event.analysis workDir url branch appId dt label
        (w.analysis workDir url branch appId dt label)
      ∈ branch_pipeline w workDir url branch appId dt label outFile := by
  unfold branch_pipeline
  by_cases h1 : w.analysis workDir url branch appId dt label ≠ 0
  · simp [h1]
  · by_cases h2 : w.trig appId = false
    · simp [h1, h2]
    · by_cases h3 : w.waitComp appId = false
      · simp [h1, h2, h3]
      · rcases hs : w.seg appId dt with _ | v
        · simp [h1, h2, h3, hs]
        · by_cases h4 : pyTruthy v = true
          · simp [h1, h2, h3, hs, h4]
          · simp [h1, h2, h3, hs, h4]

theorem branch_pipeline_writeFile_mem (w : World) (workDir url branch : String)
    (appId : PyJson) (dt : Int) (label outFile p : String) (v : PyJson)
    (h : Event.writeFile p v ∈
      branch_pipeline w workDir url branch appId dt label outFile) :
    p = outFile ∧ stagesOk w workDir url branch appId dt label = true
      ∧ w.seg appId dt = some v := by
  unfold branch_pipeline at h
  by_cases h1 : w.analysis workDir url branch appId dt label ≠ 0
  · simp [h1] at h
  · by_cases h2 : w.trig appId = false
    · simp [h1, h2] at h
    · by_cases h3 : w.waitComp appId = false
      · simp [h1, h2, h3] at h
      · rcases hs : w.seg appId dt with _ | sv
        · simp [h1, h2, h3, hs] at h
        · by_cases h4 : pyTruthy sv = true
          · simp [h1, h2, h3, hs, h4] at h
            obtain ⟨hp, hv⟩ := h
            have h1c : w.analysis workDir url branch appId dt label = 0 :=
              not_not.mp h1
            have h2c : w.trig appId = true := by simpa using h2
            have h3c : w.waitComp appId = true := by simpa using h3
            subst hp
            subst hv
            exact ⟨rfl, by simp [stagesOk, segTruthy, hs, h4, h1c, h2c, h3c],
              by simp [hs]⟩
          · simp [h1, h2, h3, hs, h4] at h

theorem branch_pipeline_writeFile_of_stagesOk (w : World)
    (workDir url branch : String) (appId : PyJson) (dt : Int)
    (label outFile : String)
    (h : stagesOk w workDir url branch appId dt label = true) :
    ∃ v, w.seg appId dt = some v
      ∧ Event.writeFile outFile v ∈
          branch_pipeline w workDir url branch appId dt label outFile := by
  simp only [stagesOk, Bool.and_eq_true, beq_iff_eq] at h
  obtain ⟨⟨⟨hcode, htrig⟩, hwait⟩, hseg⟩ := h
  rcases hs : w.seg appId dt with _ | sv
  · rw [hs] at hseg
    simp [segTruthy] at hseg
  · rw [hs] at hseg
    have hv : pyTruthy sv = true := by simpa [segTruthy] using hseg
    refine ⟨sv, rfl, ?_⟩
    unfold branch_pipeline
    simp [hcode, htrig, hwait, hs, hv]

theorem branch_pipeline_seg_key (w : World) (workDir url branch : String)
    (appId : PyJson) (dt : Int) (label outFile : String) (a : PyJson)
    (sid : Int) (res : Option PyJson)
    (h : Event.seg a sid res ∈
      branch_pipeline w workDir url branch appId dt label outFile) :
    a = appId ∧ sid = dt := by
  unfold branch_pipeline at h
  by_cases h1 : w.analysis workDir url branch appId dt label ≠ 0
  · simp [h1] at h
  · by_cases h2 : w.trig appId = false
    · simp [h1, h2] at h
    · by_cases h3 : w.waitComp appId = false
      · simp [h1, h2, h3] at h
      · rcases hs : w.seg appId dt with _ | sv
        · simp [h1, h2, h3, hs] at h
          exact ⟨h.1, h.2.1⟩
        · by_cases h4 : pyTruthy sv = true
          · simp [h1, h2, h3, hs, h4] at h
            exact ⟨h.1, h.2.1⟩
          · simp [h1, h2, h3, hs, h4] at h
            exact ⟨h.1, h.2.1⟩

theorem process_repo_filter_isCreateApp (w : World) (base : String)
    (r : RepoDetails) (tick : Nat) :
    (process_repo w base r tick).1.filter isCreateApp
      = [.createApp (repoNameOf r.repo_url)
          (create_application (w.createAppResp (repoNameOf r.repo_url)))] := by
  unfold process_repo
  rcases h : create_application (w.createAppResp (repoNameOf r.repo_url)) with _ | appId
  · simp [h, isCreateApp]
  · by_cases ht : pyTruthy appId = false
    · simp [h, ht, isCreateApp]
    · by_cases ha : (w.download r.repo_url r.assessed_branch (repoDirOf base r)).getD "" ≠ ""
      · by_cases htr : (w.download r.repo_url r.transformed_branch (repoDirOf base r)).getD "" ≠ ""
        · simp [h, ht, ha, htr, isCreateApp, branch_pipeline_filter_isCreateApp]
        · simp [h, ht, ha, htr, isCreateApp, branch_pipeline_filter_isCreateApp]
      · by_cases htr : (w.download r.repo_url r.transformed_branch (repoDirOf base r)).getD "" ≠ ""
        · simp [h, ht, ha, htr, isCreateApp, branch_pipeline_filter_isCreateApp]
        · simp [h, ht, ha, htr, isCreateApp, branch_pipeline_filter_isCreateApp]

/-- C1: for every job descriptor with N repository entries the batch driver
attempts all N repositories in list order, whatever each repository's
stages return: the application-creation attempts in the whole batch trace
are exactly one per entry of the repository list, in list order — no
per-repository failure (creation failure, download failure, analysis
failure, poll failure, export failure) breaks the loop. -/
theorem batch_attempts_every_repo (w : World) (base : String)
    (repos : List RepoDetails) (tick : Nat) :
    (process_repositories w base repos tick).filter isCreateApp
      = repos.map (fun r => Event.createApp (repoNameOf r.repo_url)
          (create_application (w.createAppResp (repoNameOf r.repo_url)))) := by
  induction repos generalizing tick with
  | nil => rfl
  | cons r rest ih =>
    rw [process_repositories, List.filter_append, process_repo_filter_isCreateApp,
      ih]
    rfl

/-- C10: application creation yields an absent result not only on an HTTP
error but also when a successful response's JSON body lacks an "id" field,
and the orchestrator treats any falsy applicationId (absent, or the integer
0) as a creation failure and skips the entire repository: its whole trace is
the creation attempt alone. -/
theorem create_application_falsy_skips_repo :
    (∀ e, create_application (.error e) = none)
    ∧ (∀ fields, fields.lookup "id" = none →
        create_application (.ok (.obj fields)) = none)
    ∧ (∀ w base r tick,
        create_application (w.createAppResp (repoNameOf r.repo_url)) = none →
        process_repo w base r tick
          = ([.createApp (repoNameOf r.repo_url) none], tick))
    ∧ (∀ w base r tick,
        create_application (w.createAppResp (repoNameOf r.repo_url))
            = some (.num 0) →
        process_repo w base r tick
          = ([.createApp (repoNameOf r.repo_url) (some (.num 0))], tick)) := by
  refine ⟨fun e => rfl, fun fields h => by simp [create_application, h], ?_, ?_⟩
  · intro w base r tick h
    simp [process_repo, h]
  · intro w base r tick h
    simp [process_repo, h, pyTruthy]




/-- Witness for `create_application_falsy_skips_repo`: a world whose
application-creation response is `200 OK` with body `{"id": 0}` — the
orchestrator skips the repository. -/
theorem create_application_falsy_skips_repo_witness :
    process_repo { happyWorld with createAppResp := fun _ => .ok (.obj [("id", .num 0)]) }
        "out" sampleRepo 0
      = ([.createApp "hello" (some (.num 0))], 0) := by
  have h := create_application_falsy_skips_repo.2.2.2
    { happyWorld with createAppResp := fun _ => .ok (.obj [("id", .num 0)]) }
    "out" sampleRepo 0 rfl
  rw [h]
  rfl

/-- C2: a branch whose analysis exits non-zero gets no computation trigger,
no status poll and no segmentation export — its pipeline trace is the
analysis event alone; and the transformed-branch pipeline of the same
repository still runs (its analysis is invoked) whatever any assessed-branch
stage returned, the transformed download being truthy and the application
created being the only conditions. -/
theorem analysis_failure_blocks_branch_only
    (w : World) (workDir url branch : String) (appId : PyJson) (dt : Int)
    (label outFile base : String) (r : RepoDetails) (tick : Nat)
    (hfail : w.analysis workDir url branch appId dt label ≠ 0)
    (happ : create_application (w.createAppResp (repoNameOf r.repo_url))
        = some appId)
    (htruthy : pyTruthy appId = true)
    (ht : tFolderOf w base r ≠ "") :
    branch_pipeline w workDir url branch appId dt label outFile
      = [.analysis workDir url branch appId dt label
          (w.analysis workDir url branch appId dt label)]
    ∧ ∃ dt2 code, Event.analysis (repoDirOf base r) r.repo_url
        r.transformed_branch appId dt2 "post-transformation" code
        ∈ (process_repo w base r tick).1 := by
  constructor
  · unfold branch_pipeline
    simp [hfail]
  · unfold tFolderOf at ht
    by_cases ha : (w.download r.repo_url r.assessed_branch (repoDirOf base r)).getD "" ≠ ""
    · refine ⟨w.time (tick + 1) * 1000,
        w.analysis (repoDirOf base r) r.repo_url r.transformed_branch appId
          (w.time (tick + 1) * 1000) "post-transformation", ?_⟩
      have hmem := branch_pipeline_analysis_mem w (repoDirOf base r) r.repo_url
        r.transformed_branch appId (w.time (tick + 1) * 1000) "post-transformation"
        (postFile (repoDirOf base r))
      simp only [process_repo, happ, htruthy]
      simp [ha, ht]
      tauto
    · refine ⟨w.time tick * 1000,
        w.analysis (repoDirOf base r) r.repo_url r.transformed_branch appId
          (w.time tick * 1000) "post-transformation", ?_⟩
      have hmem := branch_pipeline_analysis_mem w (repoDirOf base r) r.repo_url
        r.transformed_branch appId (w.time tick * 1000) "post-transformation"
        (postFile (repoDirOf base r))
      simp only [process_repo, happ, htruthy]
      simp [ha, ht]
      tauto

/-- Witness for `analysis_failure_blocks_branch_only`: with every analysis
exiting 1, the assessed-branch pipeline trace is its analysis event alone. -/
theorem analysis_failure_blocks_branch_only_witness :
    branch_pipeline failAnalysisWorld "out/hello" "https://github.com/octo/hello"
        "main" (.num 7) 0 "pre-transformation" "out/hello/pre_transformation_5r.json"
      = [.analysis "out/hello" "https://github.com/octo/hello" "main" (.num 7) 0
          "pre-transformation" 1] :=
  (analysis_failure_blocks_branch_only failAnalysisWorld "out/hello"
    "https://github.com/octo/hello" "main" (.num 7) 0 "pre-transformation"
    "out/hello/pre_transformation_5r.json" "out" sampleRepo 0
    (by decide) rfl rfl (by decide)).1

/-- The claim "if either workDir or sourceDir does not exist, the call
returns a non-zero result without invoking the external analysis tool" is
false on the code for its sourceDir half: here `work` exists but the source
directory `work/source` (and the clone target inside it) does not, yet
`execute_analysis` creates it, clones the repository and invokes the
analysis container, returning the container's exit code 0. -/
theorem execute_analysis_missing_sourceDir_not_checked :
    analysisWorldNoSource.pathExists "work/source" = false
    ∧ analysisWorldNoSource.pathExists "work/source/hello" = false
    ∧ execute_analysis analysisWorldNoSource "work" "https://github.com/octo/hello"
        "main" (.num 7) 5 "pre-transformation"
      = (0, [.authProbe true,
             .gitClone "https://github.com/octo/hello" "main" "work/source/hello" true,
             .dockerRun "work/source/hello" "work/working" (.num 7)
               "pre-transformation" 5 0]) := ⟨rfl, rfl, rfl⟩

/-- C4 (amended): a missing `workDir` is the only checked directory
precondition — the call returns 1 with no external process run; the source
directory is not required to exist (it is created and the repository cloned
on demand; a clone failure also yields 1 without invoking the analysis
container); and a failed authentication probe short-circuits with result 1
after the probe and before both the clone and the analysis container. -/
theorem execute_analysis_short_circuits (w : AnalysisWorld)
    (work_dir repo_url branch : String) (appId : PyJson) (dt : Int)
    (label : String) :
    (w.pathExists work_dir = false →
      execute_analysis w work_dir repo_url branch appId dt label = (1, []))
    ∧ (w.pathExists work_dir = true → w.authOk = false →
      execute_analysis w work_dir repo_url branch appId dt label
        = (1, [.authProbe false]))
    ∧ (w.pathExists work_dir = true → w.authOk = true →
      w.pathExists (work_dir ++ "/source" ++ "/"
          ++ pyReplace ((pySplit repo_url "/").getLastD "") ".git" "") = false →
      w.cloneOk = false →
      execute_analysis w work_dir repo_url branch appId dt label
        = (1, [.authProbe true,
               .gitClone repo_url branch
                 (work_dir ++ "/source" ++ "/"
                   ++ pyReplace ((pySplit repo_url "/").getLastD "") ".git" "")
                 false])) := by
  refine ⟨?_, ?_, ?_⟩
  · intro h1
    simp [execute_analysis, h1]
  · intro h1 h2
    simp [execute_analysis, h1, h2]
  · intro h1 h2 h3 h4
    simp [execute_analysis, h1, h2, h4]
    simpa using h3

/-- Witness for `execute_analysis_short_circuits`: a failed authentication
probe yields exit 1 with no clone and no container run. -/
theorem execute_analysis_short_circuits_witness :
    execute_analysis authFailWorld "work" "https://github.com/octo/hello"
        "main" (.num 7) 5 "pre-transformation"
      = (1, [.authProbe false]) :=
  (execute_analysis_short_circuits authFailWorld "work"
    "https://github.com/octo/hello" "main" (.num 7) 5 "pre-transformation").2.1
    rfl rfl

/-- C5 is violated by the code: calling `download_repo` twice for the same
(url, branch, destination) is not a deterministic overwrite.  On the second
call the destination already holds `hello-main` from the first call, and
`os.listdir(output_folder)[0]` — whose order the OS does not fix — may pick
that pre-existing directory instead of the fresh extraction: the code then
`rmtree`s it and `os.rename`s the very path it just removed, which raises
`FileNotFoundError`, is caught, and returns `None`, leaving the fresh
extraction behind under its platform-generated name. -/
theorem download_repo_second_call_can_fail :
    download_repo dlInsertionOrder "https://github.com/octo/hello" "main" "out" []
      = (some "out/hello-main", ["hello-main"])
    ∧ download_repo dlInsertionOrder "https://github.com/octo/hello" "main" "out"
        ["hello-main"]
      = (none, ["octo-hello-1a2b3c"]) := ⟨rfl, rfl⟩

/-- C6: a repository URL with fewer than two path segments makes the
Repository Fetcher return `None` without raising (and with the destination
untouched); and a branch whose download returned `None` gets no analysis, no
computation trigger, no status poll and no segmentation export: the
repository's trace is exactly the creation and download events followed by
the transformed-branch pipeline (when that branch downloaded). -/
theorem invalid_url_skips_branch (url : String)
    (hseg : (pathParts url).length < 2) :
    (∀ w branch output entries,
      download_repo w url branch output entries = (none, entries))
    ∧ (∀ w base r tick appId,
        r.repo_url = url →
        create_application (w.createAppResp (repoNameOf r.repo_url)) = some appId →
        pyTruthy appId = true →
        w.download r.repo_url r.assessed_branch (repoDirOf base r) = none →
        (process_repo w base r tick).1
          = [.createApp (repoNameOf r.repo_url) (some appId),
             .download r.repo_url r.assessed_branch (repoDirOf base r) none,
             .download r.repo_url r.transformed_branch (repoDirOf base r)
               (w.download r.repo_url r.transformed_branch (repoDirOf base r))]
            ++ (if tFolderOf w base r ≠ "" then
                 branch_pipeline w (repoDirOf base r) r.repo_url
                   r.transformed_branch appId (w.time tick * 1000)
                   "post-transformation" (postFile (repoDirOf base r))
               else [])) := by
  constructor
  · intro w branch output entries
    unfold download_repo
    simp [hseg]
  · intro w base r tick appId hurl happ htruthy hdl
    simp only [process_repo, happ, htruthy]
    simp [hdl, tFolderOf]

/-- Witness for `invalid_url_skips_branch`: a URL with a single path
segment. -/
theorem invalid_url_skips_branch_witness :
    download_repo dlInsertionOrder "https://github.com/onlyowner" "main" "out" []
      = (none, []) :=
  (invalid_url_skips_branch "https://github.com/onlyowner" (by decide)).1
    dlInsertionOrder "main" "out" []

theorem preFile_ne_postFile (dir : String) : preFile dir ≠ postFile dir := by
  intro h
  have hlen := congrArg String.length h
  rw [preFile, postFile, String.length_append, String.length_append] at hlen
  have h1 : ("/pre_transformation_5r.json" : String).length = 27 := rfl
  have h2 : ("/post_transformation_5r.json" : String).length = 28 := rfl
  omega

theorem process_repo_trace (w : World) (base : String) (r : RepoDetails)
    (tick : Nat) (appId : PyJson)
    (happ : create_application (w.createAppResp (repoNameOf r.repo_url))
        = some appId)
    (htruthy : pyTruthy appId = true) :
    (process_repo w base r tick).1
      = [.createApp (repoNameOf r.repo_url) (some appId),
         .download r.repo_url r.assessed_branch (repoDirOf base r)
           (w.download r.repo_url r.assessed_branch (repoDirOf base r)),
         .download r.repo_url r.transformed_branch (repoDirOf base r)
           (w.download r.repo_url r.transformed_branch (repoDirOf base r))]
        ++ (if aFolderOf w base r ≠ "" then
              branch_pipeline w (repoDirOf base r) r.repo_url r.assessed_branch
                appId (preDt w tick) "pre-transformation"
                (preFile (repoDirOf base r))
            else [])
        ++ (if tFolderOf w base r ≠ "" then
              branch_pipeline w (repoDirOf base r) r.repo_url r.transformed_branch
                appId (postDt w base r tick) "post-transformation"
                (postFile (repoDirOf base r))
            else []) := by
  simp only [process_repo, happ, htruthy]
  simp only [aFolderOf, tFolderOf, preDt, postDt, tickAfterA]
  simp

theorem appIdOf_eq_some (w : World) (r : RepoDetails) (appId : PyJson)
    (h : appIdOf w r = some appId) :
    create_application (w.createAppResp (repoNameOf r.repo_url)) = some appId
      ∧ pyTruthy appId = true := by
  unfold appIdOf at h
  rcases hc : create_application (w.createAppResp (repoNameOf r.repo_url)) with _ | a
  · rw [hc] at h
    simp at h
  · rw [hc] at h
    by_cases hta : pyTruthy a = true
    · simp [hta] at h
      subst h
      exact ⟨rfl, hta⟩
    · simp [hta] at h

theorem process_repo_writeFile_mem (w : World) (base : String) (r : RepoDetails)
    (tick : Nat) (p : String) (v : PyJson)
    (h : Event.writeFile p v ∈ (process_repo w base r tick).1) :
    ∃ appId, appIdOf w r = some appId ∧
      ((p = preFile (repoDirOf base r) ∧ aFolderOf w base r ≠ ""
          ∧ stagesOk w (repoDirOf base r) r.repo_url r.assessed_branch appId
              (preDt w tick) "pre-transformation" = true
          ∧ w.seg appId (preDt w tick) = some v)
       ∨ (p = postFile (repoDirOf base r) ∧ tFolderOf w base r ≠ ""
          ∧ stagesOk w (repoDirOf base r) r.repo_url r.transformed_branch appId
              (postDt w base r tick) "post-transformation" = true
          ∧ w.seg appId (postDt w base r tick) = some v)) := by
  rcases happ : create_application (w.createAppResp (repoNameOf r.repo_url))
    with _ | appId
  · simp only [process_repo, happ] at h
    simp at h
  · by_cases htruthy : pyTruthy appId = true
    · rw [process_repo_trace w base r tick appId happ htruthy] at h
      refine ⟨appId, by simp [appIdOf, happ, htruthy], ?_⟩
      rcases List.mem_append.1 h with h1 | h1
      · rcases List.mem_append.1 h1 with h2 | h2
        · simp at h2
        · by_cases ha : aFolderOf w base r ≠ ""
          · rw [if_pos ha] at h2
            have := branch_pipeline_writeFile_mem w (repoDirOf base r) r.repo_url
              r.assessed_branch appId (preDt w tick) "pre-transformation"
              (preFile (repoDirOf base r)) p v h2
            exact Or.inl ⟨this.1, ha, this.2.1, this.2.2⟩
          · rw [if_neg ha] at h2
            simp at h2
      · by_cases ht : tFolderOf w base r ≠ ""
        · rw [if_pos ht] at h1
          have := branch_pipeline_writeFile_mem w (repoDirOf base r) r.repo_url
            r.transformed_branch appId (postDt w base r tick) "post-transformation"
            (postFile (repoDirOf base r)) p v h1
          exact Or.inr ⟨this.1, ht, this.2.1, this.2.2⟩
        · rw [if_neg ht] at h1
          simp at h1
    · simp only [process_repo, happ] at h
      simp [htruthy] at h

theorem process_repo_writeFile_pre (w : World) (base : String) (r : RepoDetails)
    (tick : Nat) (appId : PyJson)
    (happ : appIdOf w r = some appId) (ha : aFolderOf w base r ≠ "")
    (hok : stagesOk w (repoDirOf base r) r.repo_url r.assessed_branch appId
        (preDt w tick) "pre-transformation" = true) :
    ∃ v, Event.writeFile (preFile (repoDirOf base r)) v
      ∈ (process_repo w base r tick).1 := by
  obtain ⟨hc, hta⟩ := appIdOf_eq_some w r appId happ
  obtain ⟨v, _, hmem⟩ := branch_pipeline_writeFile_of_stagesOk w
    (repoDirOf base r) r.repo_url r.assessed_branch appId (preDt w tick)
    "pre-transformation" (preFile (repoDirOf base r)) hok
  refine ⟨v, ?_⟩
  rw [process_repo_trace w base r tick appId hc hta]
  exact List.mem_append_left _ (List.mem_append_right _ (by rw [if_pos ha]; exact hmem))

theorem process_repo_writeFile_post (w : World) (base : String) (r : RepoDetails)
    (tick : Nat) (appId : PyJson)
    (happ : appIdOf w r = some appId) (ht : tFolderOf w base r ≠ "")
    (hok : stagesOk w (repoDirOf base r) r.repo_url r.transformed_branch appId
        (postDt w base r tick) "post-transformation" = true) :
    ∃ v, Event.writeFile (postFile (repoDirOf base r)) v
      ∈ (process_repo w base r tick).1 := by
  obtain ⟨hc, hta⟩ := appIdOf_eq_some w r appId happ
  obtain ⟨v, _, hmem⟩ := branch_pipeline_writeFile_of_stagesOk w
    (repoDirOf base r) r.repo_url r.transformed_branch appId
    (postDt w base r tick) "post-transformation" (postFile (repoDirOf base r)) hok
  refine ⟨v, ?_⟩
  rw [process_repo_trace w base r tick appId hc hta]
  exact List.mem_append_right _ (by rw [if_pos ht]; exact hmem)

/-- C7: a segmentation file is written iff every stage of that branch's
pipeline succeeds — application created with a truthy id, branch download
truthy, analysis exit code 0, computation trigger accepted, poll completed,
segmentation fetch truthy — and every file written goes exactly to
`<outputRoot>/<repoName>/pre_transformation_5r.json` for the assessed branch
or `<outputRoot>/<repoName>/post_transformation_5r.json` for the transformed
branch. -/
theorem segmentation_written_iff_pipeline_succeeds (w : World) (base : String)
    (r : RepoDetails) (tick : Nat) :
    ((∃ v, Event.writeFile (preFile (repoDirOf base r)) v
        ∈ (process_repo w base r tick).1)
      ↔ ∃ appId, appIdOf w r = some appId ∧ aFolderOf w base r ≠ ""
          ∧ stagesOk w (repoDirOf base r) r.repo_url r.assessed_branch appId
              (preDt w tick) "pre-transformation" = true)
    ∧ ((∃ v, Event.writeFile (postFile (repoDirOf base r)) v
        ∈ (process_repo w base r tick).1)
      ↔ ∃ appId, appIdOf w r = some appId ∧ tFolderOf w base r ≠ ""
          ∧ stagesOk w (repoDirOf base r) r.repo_url r.transformed_branch appId
              (postDt w base r tick) "post-transformation" = true)
    ∧ (∀ p v, Event.writeFile p v ∈ (process_repo w base r tick).1 →
        p = preFile (repoDirOf base r) ∨ p = postFile (repoDirOf base r)) := by
  refine ⟨⟨?_, ?_⟩, ⟨?_, ?_⟩, ?_⟩
  · rintro ⟨v, hv⟩
    obtain ⟨appId, happ, hcase⟩ := process_repo_writeFile_mem w base r tick _ v hv
    rcases hcase with ⟨_, ha, hok, _⟩ | ⟨hp, _, _, _⟩
    · exact ⟨appId, happ, ha, hok⟩
    · exact absurd hp (preFile_ne_postFile (repoDirOf base r))
  · rintro ⟨appId, happ, ha, hok⟩
    exact process_repo_writeFile_pre w base r tick appId happ ha hok
  · rintro ⟨v, hv⟩
    obtain ⟨appId, happ, hcase⟩ := process_repo_writeFile_mem w base r tick _ v hv
    rcases hcase with ⟨hp, _, _, _⟩ | ⟨_, ht, hok, _⟩
    · exact absurd hp.symm (preFile_ne_postFile (repoDirOf base r))
    · exact ⟨appId, happ, ht, hok⟩
  · rintro ⟨appId, happ, ht, hok⟩
    exact process_repo_writeFile_post w base r tick appId happ ht hok
  · intro p v hv
    obtain ⟨appId, happ, hcase⟩ := process_repo_writeFile_mem w base r tick p v hv
    rcases hcase with ⟨hp, _⟩ | ⟨hp, _⟩
    · exact Or.inl hp
    · exact Or.inr hp

theorem wait_loop_stop (poll : Nat → PollResp) (mw k e : Nat) (hge : ¬ e < mw) :
    wait_loop poll mw k e = (false, k, e) := by
  rw [wait_loop, dif_neg hge]

theorem wait_loop_step_completed (poll : Nat → PollResp) (mw k e : Nat)
    (hlt : e < mw) (hc : pollCompleted (poll k) = true) :
    wait_loop poll mw k e = (true, k + 1, e) := by
  rw [wait_loop, dif_pos hlt]
  rcases hp : poll k with _ | j
  · rw [hp] at hc
    simp [pollCompleted] at hc
  · rw [hp] at hc
    rcases j with _ | b | n | s | elems | fields <;> simp [pollCompleted] at hc
    dsimp only
    rw [hc]

theorem wait_loop_step_fatal (poll : Nat → PollResp) (mw k e : Nat)
    (hlt : e < mw) (hf : pollFatal (poll k) = true) :
    wait_loop poll mw k e = (false, k + 1, e) := by
  rw [wait_loop, dif_pos hlt]
  rcases hp : poll k with _ | j
  · rfl
  · rw [hp] at hf
    rcases j with _ | b | n | s | elems | fields <;> try rfl
    rcases hsig : statusSignal (fields.lookup "status") with _ | _ | _
    · simp [pollFatal, pollCompleted, pollNonterminal, hsig] at hf
    · dsimp only
      rw [hsig]
    · simp [pollFatal, pollNonterminal, hsig] at hf

theorem wait_loop_step_nonterminal (poll : Nat → PollResp) (mw k e : Nat)
    (hlt : e < mw) (hnt : pollNonterminal (poll k) = true) :
    wait_loop poll mw k e = wait_loop poll mw (k + 1) (e + 30) := by
  rw [wait_loop, dif_pos hlt]
  rcases hp : poll k with _ | j
  · rw [hp] at hnt
    simp [pollNonterminal] at hnt
  · rw [hp] at hnt
    rcases j with _ | b | n | s | elems | fields <;> simp [pollNonterminal] at hnt
    dsimp only
    rw [hnt]

theorem poll_classify (r : PollResp) :
    pollCompleted r = true ∨ pollFatal r = true ∨ pollNonterminal r = true := by
  rcases r with _ | j
  · right; left; rfl
  · rcases j with _ | b | n | s | elems | fields
    · right; left; rfl
    · right; left; rfl
    · right; left; rfl
    · right; left; rfl
    · right; left; rfl
    · rcases hsig : statusSignal (fields.lookup "status") with _ | _ | _
      · left
        simp [pollCompleted, hsig]
      · right; left
        simp [pollFatal, pollCompleted, pollNonterminal, hsig]
      · right; right
        simp [pollNonterminal, hsig]

theorem wait_loop_run_nonterminal (poll : Nat → PollResp) (mw : Nat) :
    ∀ d k e, (∀ m, m < d → pollNonterminal (poll (k + m)) = true) →
      (∀ m, m < d → e + 30 * m < mw) →
      wait_loop poll mw k e = wait_loop poll mw (k + d) (e + 30 * d) := by
  intro d
  induction d with
  | zero =>
    intro k e _ _
    simp
  | succ d ih =>
    intro k e hnt hguard
    have h0 : pollNonterminal (poll k) = true := by
      have := hnt 0 (Nat.succ_pos d)
      simpa using this
    have hlt : e < mw := by
      have := hguard 0 (Nat.succ_pos d)
      simpa using this
    rw [wait_loop_step_nonterminal poll mw k e hlt h0]
    have hrec := ih (k + 1) (e + 30)
      (fun m hm => by
        have := hnt (m + 1) (by omega)
        have heq : k + (m + 1) = k + 1 + m := by omega
        rw [heq] at this
        exact this)
      (fun m hm => by
        have := hguard (m + 1) (by omega)
        omega)
    rw [hrec]
    have h1 : k + 1 + d = k + (d + 1) := by omega
    have h2 : e + 30 + 30 * d = e + 30 * (d + 1) := by ring
    rw [h1, h2]

theorem wait_loop_true_elim (poll : Nat → PollResp) (mw : Nat) :
    ∀ fuel k e, mw - e ≤ 30 * fuel →
      (wait_loop poll mw k e).1 = true →
      ∃ n, e + 30 * n < mw ∧ (∀ m, m < n → pollNonterminal (poll (k + m)) = true)
        ∧ pollCompleted (poll (k + n)) = true := by
  intro fuel
  induction fuel with
  | zero =>
    intro k e hf htrue
    have hge : ¬ e < mw := by omega
    rw [wait_loop_stop poll mw k e hge] at htrue
    simp at htrue
  | succ fuel ih =>
    intro k e hf htrue
    by_cases hlt : e < mw
    · rcases poll_classify (poll k) with hc | hfa | hnt
      · refine ⟨0, by omega, by omega, by simpa using hc⟩
      · rw [wait_loop_step_fatal poll mw k e hlt hfa] at htrue
        simp at htrue
      · rw [wait_loop_step_nonterminal poll mw k e hlt hnt] at htrue
        obtain ⟨n, hn1, hn2, hn3⟩ := ih (k + 1) (e + 30) (by omega) htrue
        refine ⟨n + 1, by omega, ?_, ?_⟩
        · intro m hm
          rcases m with _ | m
          · simpa using hnt
          · have heq : k + (m + 1) = k + 1 + m := by omega
            rw [heq]
            exact hn2 m (by omega)
        · have heq : k + (n + 1) = k + 1 + n := by omega
          rw [heq]
          exact hn3
    · rw [wait_loop_stop poll mw k e hlt] at htrue
      simp at htrue

/-- C3: `wait_for_computation` polls the status endpoint on a fixed
30-second interval.  It returns success iff a performed poll observes status
COMPLETED (the preceding polls all non-terminal); a poll observing FAILED,
or any poll error (network/HTTP error, or a non-dict body), makes it return
failure at once with no retry; and against a status endpoint that never
returns COMPLETED or FAILED, the loop stops exactly at the wall-clock budget
with a failure result: with the default budget of 3600 seconds — the only
budget this program ever passes — it performs exactly 120 polls and stops at
elapsed time exactly 3600. -/
theorem wait_for_computation_correct (poll : Nat → PollResp) (mw : Nat) :
    (wait_for_computation poll mw = true ↔
      ∃ n, 30 * n < mw ∧ (∀ m, m < n → pollNonterminal (poll m) = true)
        ∧ pollCompleted (poll n) = true)
    ∧ (∀ n, 30 * n < mw → (∀ m, m < n → pollNonterminal (poll m) = true) →
        pollFatal (poll n) = true →
        wait_loop poll mw 0 0 = (false, n + 1, 30 * n))
    ∧ ((∀ n, pollNonterminal (poll n) = true) →
        wait_loop poll 3600 0 0 = (false, 120, 3600)) := by
  refine ⟨⟨?_, ?_⟩, ?_, ?_⟩
  · intro htrue
    obtain ⟨n, hn1, hn2, hn3⟩ := wait_loop_true_elim poll mw mw 0 0 (by omega) htrue
    exact ⟨n, by omega, fun m hm => by simpa using hn2 m hm, by simpa using hn3⟩
  · rintro ⟨n, hn1, hn2, hn3⟩
    unfold wait_for_computation
    rw [wait_loop_run_nonterminal poll mw n 0 0
      (fun m hm => by simpa using hn2 m hm)
      (fun m hm => by omega)]
    rw [wait_loop_step_completed poll mw (0 + n) (0 + 30 * n) (by omega)
      (by simpa using hn3)]
  · intro n hn1 hn2 hn3
    rw [wait_loop_run_nonterminal poll mw n 0 0
      (fun m hm => by simpa using hn2 m hm)
      (fun m hm => by omega)]
    rw [wait_loop_step_fatal poll mw (0 + n) (0 + 30 * n) (by omega)
      (by simpa using hn3)]
    simp
  · intro hall
    rw [wait_loop_run_nonterminal poll 3600 120 0 0
      (fun m _ => hall (0 + m))
      (fun m hm => by omega)]
    rw [wait_loop_stop poll 3600 (0 + 120) (0 + 30 * 120) (by omega)]

/-- Witness for `wait_for_computation_correct`: an endpoint that always
answers `{"status": "RUNNING"}` makes the default-budget loop perform 120
polls and stop with failure at elapsed time 3600. -/
theorem wait_for_computation_correct_witness :
    wait_loop alwaysRunningPoll 3600 0 0 = (false, 120, 3600) :=
  (wait_for_computation_correct alwaysRunningPoll 3600).2.2
    (fun n => by simp [alwaysRunningPoll, pollNonterminal, statusSignal])

/-- C9: within one repository (application created truthy, both branches
downloaded), the assessed-branch snapshot datetime is
`(now − 24·3600) · 1000` for the clock read at its pipeline start, the
transformed-branch snapshot datetime is `now · 1000` for the (later) clock
read at its own pipeline start; for a non-decreasing clock the assessed
timestamp is strictly earlier; and within each branch pipeline, every
segmentation fetch uses that branch's snapshot datetime as its snapshot
key. -/
theorem snapshot_datetime_ordering (w : World) (base : String) (r : RepoDetails)
    (tick : Nat) (appId : PyJson)
    (happ : create_application (w.createAppResp (repoNameOf r.repo_url))
        = some appId)
    (htruthy : pyTruthy appId = true)
    (ha : aFolderOf w base r ≠ "")
    (ht : tFolderOf w base r ≠ "")
    (hclock : w.time tick ≤ w.time (tick + 1)) :
    (process_repo w base r tick).1
      = [.createApp (repoNameOf r.repo_url) (some appId),
         .download r.repo_url r.assessed_branch (repoDirOf base r)
           (w.download r.repo_url r.assessed_branch (repoDirOf base r)),
         .download r.repo_url r.transformed_branch (repoDirOf base r)
           (w.download r.repo_url r.transformed_branch (repoDirOf base r))]
        ++ branch_pipeline w (repoDirOf base r) r.repo_url r.assessed_branch
             appId ((w.time tick - 86400) * 1000) "pre-transformation"
             (preFile (repoDirOf base r))
        ++ branch_pipeline w (repoDirOf base r) r.repo_url r.transformed_branch
             appId (w.time (tick + 1) * 1000) "post-transformation"
             (postFile (repoDirOf base r))
    ∧ (w.time tick - 86400) * 1000 < w.time (tick + 1) * 1000
    ∧ (∀ a sid res, Event.seg a sid res
        ∈ branch_pipeline w (repoDirOf base r) r.repo_url r.assessed_branch
            appId ((w.time tick - 86400) * 1000) "pre-transformation"
            (preFile (repoDirOf base r)) →
        sid = (w.time tick - 86400) * 1000)
    ∧ (∀ a sid res, Event.seg a sid res
        ∈ branch_pipeline w (repoDirOf base r) r.repo_url r.transformed_branch
            appId (w.time (tick + 1) * 1000) "post-transformation"
            (postFile (repoDirOf base r)) →
        sid = w.time (tick + 1) * 1000) := by
  refine ⟨?_, by omega, ?_, ?_⟩
  · rw [process_repo_trace w base r tick appId happ htruthy, if_pos ha, if_pos ht]
    simp only [preDt, postDt, tickAfterA, if_pos ha]
  · intro a sid res hmem
    exact (branch_pipeline_seg_key w (repoDirOf base r) r.repo_url
      r.assessed_branch appId ((w.time tick - 86400) * 1000) "pre-transformation"
      (preFile (repoDirOf base r)) a sid res hmem).2
  · intro a sid res hmem
    exact (branch_pipeline_seg_key w (repoDirOf base r) r.repo_url
      r.transformed_branch appId (w.time (tick + 1) * 1000) "post-transformation"
      (postFile (repoDirOf base r)) a sid res hmem).2

/-- Witness for `snapshot_datetime_ordering` at `happyWorld`: the assessed
snapshot timestamp is strictly earlier than the transformed one. -/
theorem snapshot_datetime_ordering_witness :
    (happyWorld.time 0 - 86400) * 1000 < happyWorld.time 1 * 1000 :=
  (snapshot_datetime_ordering happyWorld "out" sampleRepo 0 (.num 7) rfl rfl
    (by decide) (by decide) (by decide)).2.1
